import Mathlib

/-!
Shallow embedding of the workspace-config resolution engine
(src/extensions/workspace-config/workspace-config.ts): format detection,
legacy-to-modern adaptation, per-component override resolution and
extension-config partitioning. External collaborators (the Legacy Bridge,
the Override Table internals, the comment-json parser) are not under src/
and are modelled from the spec where marked.
-/

/-- Parsed JSON-like value as produced by the comment-json parser: either a
string (compiler ids, paths, settings values) or an object, represented as an
association list of fields in document order. -/
inductive Value where
  | str (s : String)
  | obj (fields : List (String × Value))

/-- Property read on a JS object: the value at key k, or none when the key is
absent. JS objects have unique keys, so the first binding is authoritative. -/
def lookupKey (k : String) : List (String × α) → Option α
  | [] => none
  | (k', v) :: rest => if k' = k then some v else lookupKey k rest

/-- Property assignment on a JS object: an existing key keeps its position and
gets the new value; a new key is appended at the end. -/
def putKey (k : String) (v : α) (o : List (String × α)) : List (String × α) :=
  if (lookupKey k o).isSome then
    o.map (fun kv => if kv.1 = k then (k, v) else kv)
  else o ++ [(k, v)]

/-- Shallow merge in the style of Object.assign (and of comment-json's assign,
value-wise): every source field is copied onto the target; target fields keep
their position, fields new to the target are appended in source order. -/
def docAssign (target source : List (String × Value)) : List (String × Value) :=
  target.map (fun kv =>
    match lookupKey kv.1 source with
    | some w => (kv.1, w)
    | none => kv)
  ++ source.filter (fun kv => (lookupKey kv.1 target).isNone)

/-- JS truthiness of a parsed value: the empty string is falsy; every other
string and every object is truthy. -/
def vTruthy : Value → Bool
  | .str s => s ≠ ""
  | .obj _ => true

/-- The JS expression a-or-else-b on possibly-absent values: a when present
and truthy, otherwise b. -/
def jsOr (a b : Option Value) : Option Value :=
  match a with
  | some v => if vTruthy v then some v else b
  | none => b

/-- The JS string or-chain x or-else d: x when present and non-empty,
otherwise d. -/
def strOr (a : Option String) (d : String) : String :=
  match a with
  | some s => if s = "" then d else s
  | none => d

/-- Env section of an override record: compiler and tester descriptors plus
any further env fields, as read by getComponentConfig. -/
structure EnvOverride where
  compiler : Option Value
  tester : Option Value
  otherEnv : List (String × Value)

/-- The empty env object materialised by getComponentConfig when the record
has no env section. -/
def emptyEnvOverride : EnvOverride :=
  { compiler := none, tester := none, otherEnv := [] }

/-- Resolved override record for one concrete component id: an optional env
section plus all remaining fields. -/
structure ConsumerOverridesOfComponent where
  env : Option EnvOverride
  other : List (String × Value)

/-- The empty override record returned when nothing matches. -/
def emptyOverrideRecord : ConsumerOverridesOfComponent :=
  { env := none, other := [] }

/-- Ordered override table: component-id-pattern to override record, in
declaration order. -/
abbrev ConsumerOverrides := List (String × ConsumerOverridesOfComponent)

/-- Modelled from the spec: decoding a raw env section of an override record;
a malformed (non-object) section degrades to an empty env, never an error. -/
def decodeEnv : Value → EnvOverride
  | .str _ => emptyEnvOverride
  | .obj fs =>
    { compiler := lookupKey "compiler" fs,
      tester := lookupKey "tester" fs,
      otherEnv := fs.filter (fun kv => kv.1 ≠ "compiler" && kv.1 ≠ "tester") }

/-- Modelled from the spec: decoding one raw override record; malformed
entries degrade to empty records, never an error. -/
def decodeOverrideRecord : Value → ConsumerOverridesOfComponent
  | .str _ => emptyOverrideRecord
  | .obj fs =>
    { env := (lookupKey "env" fs).map decodeEnv,
      other := fs.filter (fun kv => kv.1 ≠ "env") }

/-- Modelled from the spec: ConsumerOverrides.load builds the table from the
raw parsed components section; a missing or malformed section degrades to an
empty table, never an error. -/
def ConsumerOverrides.load : Option Value → ConsumerOverrides
  | some (.obj entries) => entries.map (fun kv => (kv.1, decodeOverrideRecord kv.2))
  | _ => []

/-- Modelled from the spec: pattern matching of an override pattern against an
opaque component id, modelled as exact equality of the tokens. -/
def matchesPattern (pattern componentId : String) : Bool :=
  pattern = componentId

/-- Modelled from the spec: field-by-field shallow merge of two override
records; the later record's top-level fields override the earlier one's. -/
def mergeOverrideRecords (a b : ConsumerOverridesOfComponent) :
    ConsumerOverridesOfComponent :=
  { env :=
      match b.env with
      | some e => some e
      | none => a.env,
    other := docAssign a.other b.other }

/-- Modelled from the spec: getOverrideComponentData matches the id against
all stored patterns, merges every matching record in table order (later
matches shallow-override earlier ones field by field) and returns a fresh
record; an empty record — never null — when nothing matches. -/
def ConsumerOverrides.getOverrideComponentData (table : ConsumerOverrides)
    (componentId : String) : ConsumerOverridesOfComponent :=
  (table.filter (fun e => matchesPattern e.1 componentId)).foldl
    (fun acc e => mergeOverrideRecords acc e.2) emptyOverrideRecord

/-- Virtual-file record handed to the persistence collaborator. -/
structure AbstractVinyl where
  base : String
  path : String
  contents : String

/-- Modelled from the spec: the Legacy Bridge exposes an already-loaded legacy
config as a read-only source of root-level compiler/tester, root-level
language, an override table, its file path, and write/toVinyl routines whose
output is opaque to this core. -/
structure LegacyWorkspaceConfig where
  path : String
  lang : String
  compiler : Option Value
  tester : Option Value
  overrides : Option ConsumerOverrides
  toVinylFn : String → Option AbstractVinyl

/-- Modelled from the spec: the plain-object snapshot of a legacy config,
used only for the env fallback; its env section carries the legacy root-level
compiler and tester. -/
structure LegacyPlainObject where
  env : EnvOverride

/-- Modelled from the spec: toPlainObject snapshots the legacy config. -/
def LegacyWorkspaceConfig.toPlainObject (l : LegacyWorkspaceConfig) :
    LegacyPlainObject :=
  { env := { compiler := l.compiler, tester := l.tester, otherEnv := [] } }

/-- Modelled from the spec: WorkspaceSettings is a flattened key/value map of
workspace-level settings (default scope, default component directory,
language, tooling type, extension namespaces). -/
abbrev WorkspaceSettings := List (String × Value)

/-- Modelled from the spec: WorkspaceSettings.fromObject builds the settings
directly from the modern payload's workspace section. -/
def WorkspaceSettings.fromObject : Option Value → WorkspaceSettings
  | some (.obj fs) => fs
  | _ => []

/-- Modelled from the spec: WorkspaceSettings.fromLegacyConfig adapts the
settings from the wrapped legacy config (its root-level language); an absent
legacy config gives empty settings. -/
def WorkspaceSettings.fromLegacyConfig : Option LegacyWorkspaceConfig → WorkspaceSettings
  | some l => [("lang", Value.str l.lang)]
  | none => []

/-- The fixed default language constant (DEFAULT_LANGUAGE from the constants
module; its concrete value is immaterial here). -/
def DEFAULT_LANGUAGE : String := "javascript"

/-- The fixed filename of the modern config file (BIT_JSONC constant). -/
def BIT_JSONC : String := "bit.jsonc"

/-- Model of path.join for composing the config file path under a directory. -/
def pathJoin (dir file : String) : String := dir ++ "/" ++ file

/-- The resolved, format-agnostic configuration root: optional modern data
payload, optional wrapped legacy config, the derived workspace settings and
the optional explicitly-set file path. -/
structure WorkspaceConfig where
  data : Option (List (String × Value))
  legacyConfig : Option LegacyWorkspaceConfig
  workspaceSettings : WorkspaceSettings
  _path : Option String

/-- The WorkspaceConfig constructor: stores the two optional payloads and
derives workspaceSettings from the modern data's workspace section when data
is present, otherwise from the legacy config. -/
def WorkspaceConfig.mkConfig (data : Option (List (String × Value)))
    (legacyConfig : Option LegacyWorkspaceConfig) : WorkspaceConfig :=
  { data := data,
    legacyConfig := legacyConfig,
    workspaceSettings :=
      match data with
      | some d => WorkspaceSettings.fromObject (lookupKey "workspace" d)
      | none => WorkspaceSettings.fromLegacyConfig legacyConfig,
    _path := none }

/-- Path getter: the explicitly set path, or-else the wrapped legacy config's
path, or-else the empty string (a JS or-chain, so an empty set path falls
through). -/
def WorkspaceConfig.getPath (c : WorkspaceConfig) : String :=
  strOr c._path (strOr (c.legacyConfig.map LegacyWorkspaceConfig.path) "")

/-- Path setter: stores the explicit path. -/
def WorkspaceConfig.setPath (c : WorkspaceConfig) (configPath : String) :
    WorkspaceConfig :=
  { c with _path := some configPath }

/-- Lang getter: the wrapped legacy config's language, or-else the fixed
default language constant. -/
def WorkspaceConfig.lang (c : WorkspaceConfig) : String :=
  strOr (c.legacyConfig.map LegacyWorkspaceConfig.lang) DEFAULT_LANGUAGE

/-- componentsConfig getter: for modern data, the Override Table loaded from
the payload's components field; otherwise the legacy config's overrides
(possibly absent). -/
def WorkspaceConfig.componentsConfig (c : WorkspaceConfig) :
    Option ConsumerOverrides :=
  match c.data with
  | some d => some (ConsumerOverrides.load (lookupKey "components" d))
  | none => c.legacyConfig.bind LegacyWorkspaceConfig.overrides

/-- The legacy plain-object snapshot, present exactly when a legacy config is
wrapped. -/
def WorkspaceConfig._legacyPlainObject (c : WorkspaceConfig) :
    Option LegacyPlainObject :=
  c.legacyConfig.map LegacyWorkspaceConfig.toPlainObject

/-- The record produced by the Override Table lookup inside getComponentConfig:
the merged override data for the id, or the empty record when there is no
table. -/
def WorkspaceConfig.overrideLookup (c : WorkspaceConfig) (componentId : String) :
    ConsumerOverridesOfComponent :=
  match c.componentsConfig with
  | some table => table.getOverrideComponentData componentId
  | none => emptyOverrideRecord

/-- getComponentConfig: start from the Override Table's merged record; when a
legacy config is wrapped, materialise the env section if absent and fill
env.compiler and env.tester from the legacy root-level values unless the
record already supplies a truthy value (JS or-assignment). -/
def WorkspaceConfig.getComponentConfig (c : WorkspaceConfig)
    (componentId : String) : ConsumerOverridesOfComponent :=
  let config := c.overrideLookup componentId
  match c._legacyPlainObject with
  | some plainLegacy =>
    let env0 := config.env.getD emptyEnvOverride
    { config with
      env := some
        { env0 with
          compiler := jsOr env0.compiler plainLegacy.env.compiler,
          tester := jsOr env0.tester plainLegacy.env.tester } }
  | none => config

/-- fromObject: build an instance from modern data. -/
def WorkspaceConfig.fromObject (data : List (String × Value)) : WorkspaceConfig :=
  WorkspaceConfig.mkConfig (some data) none

/-- fromLegacyConfig: build an instance wrapping an already-loaded legacy
config. -/
def WorkspaceConfig.fromLegacyConfig (legacyConfig : LegacyWorkspaceConfig) :
    WorkspaceConfig :=
  WorkspaceConfig.mkConfig none (some legacyConfig)

/-- composeBitJsoncPath: the bit.jsonc path under a containing directory. -/
def WorkspaceConfig.composeBitJsoncPath (dirPath : String) : String :=
  pathJoin dirPath BIT_JSONC

/-- The external world read by the resolution engine: the file system (path
to contents), the Legacy Bridge's own existence/load routine, the comment-json
parse and stringify routines, and the parsed fixed template resource. The
latter four are external collaborators (spec section 6) supplied as components
of the world. -/
structure World where
  files : List (String × String)
  legacyLoad : String → Option LegacyWorkspaceConfig
  parse : String → Option (List (String × Value))
  stringify : List (String × Value) → String
  template : List (String × Value)

/-- File-existence probe against the world's file system. -/
def World.pathExists (w : World) (p : String) : Bool :=
  (lookupKey p w.files).isSome

/-- pathHasBitJsonc: whether the fixed-name file exists directly under the
given directory. -/
def WorkspaceConfig.pathHasBitJsonc (w : World) (dirPath : String) : Bool :=
  w.pathExists (WorkspaceConfig.composeBitJsoncPath dirPath)

/-- The InvalidConfigFile error: the modern config file exists but failed to
parse; it carries the offending path. -/
structure InvalidConfigFile where
  path : String

/-- Load from the contents of the bit.jsonc file at the given path: parse and
build via fromObject; a parse failure raises InvalidConfigFile naming the
path. The file read itself is performed against the world by the caller. -/
def WorkspaceConfig._loadFromBitJsonc (w : World) (bitJsoncPath contents : String) :
    Except InvalidConfigFile WorkspaceConfig :=
  match w.parse contents with
  | some parsed => .ok (WorkspaceConfig.fromObject parsed)
  | none => .error { path := bitJsoncPath }

/-- loadIfExist: probe the directory for the modern config file by fixed
filename; when present, load and parse it and set the instance path; when
absent, delegate to the Legacy Bridge's own load routine and wrap a found
legacy config; otherwise return none (no exception). -/
def WorkspaceConfig.loadIfExist (w : World) (dirPath : String) :
    Except InvalidConfigFile (Option WorkspaceConfig) :=
  let jsoncPath := WorkspaceConfig.composeBitJsoncPath dirPath
  match lookupKey jsoncPath w.files with
  | some contents =>
    match WorkspaceConfig._loadFromBitJsonc w jsoncPath contents with
    | .ok inst => .ok (some (inst.setPath jsoncPath))
    | .error e => .error e
  | none =>
    match w.legacyLoad dirPath with
    | some legacyConfig => .ok (some (WorkspaceConfig.fromLegacyConfig legacyConfig))
    | none => .ok none

/-- create: take the parsed template resource, shallow-merge the given props
over it (assign semantics, value level), build the instance from the merged
document, and set its path to the computed bit.jsonc path when a directory is
given. -/
def WorkspaceConfig.create (w : World) (props : List (String × Value))
    (dirPath : Option String) : WorkspaceConfig :=
  let template := w.template
  let merged := docAssign template props
  let inst := WorkspaceConfig.mkConfig (some merged) none
  match dirPath with
  | some dir => inst.setPath (WorkspaceConfig.composeBitJsoncPath dir)
  | none => inst

/-- ensure: return the existing config when loadIfExist finds one, otherwise
synthesize a new one from the template and the given props with the computed
destination path. -/
def WorkspaceConfig.ensure (w : World) (dirPath : String)
    (workspaceConfigProps : List (String × Value)) :
    Except InvalidConfigFile WorkspaceConfig :=
  match WorkspaceConfig.loadIfExist w dirPath with
  | .error e => .error e
  | .ok (some workspaceConfig) => .ok workspaceConfig
  | .ok none => .ok (WorkspaceConfig.create w workspaceConfigProps (some dirPath))

/-- toVinyl: with modern data, serialize it and produce one virtual file based
at the workspace dir, at the computed bit.jsonc path (or at the instance path
when the given dir is empty, since the JS conditional tests truthiness);
without modern data, delegate to the legacy config's own toVinyl. -/
def WorkspaceConfig.toVinyl (c : WorkspaceConfig) (w : World)
    (workspaceDir : String) : Option AbstractVinyl :=
  match c.data with
  | some d =>
    let jsonStr := w.stringify d
    let base := workspaceDir
    let fullPath :=
      if workspaceDir ≠ "" then WorkspaceConfig.composeBitJsoncPath workspaceDir
      else c.getPath
    some { base := base, path := fullPath, contents := jsonStr }
  | none => c.legacyConfig.bind (fun l => l.toVinylFn workspaceDir)

/-- Observable persistence effect of one write call: the virtual-file records
this component itself hands to the persistence collaborator, or delegation to
the Legacy Bridge's own write. -/
inductive WriteResult where
  | persisted (files : List AbstractVinyl)
  | delegatedToLegacy (workspaceDir : String)

/-- write: with modern data, build the vinyl file and persist exactly that one
record; otherwise (or if no file was produced) delegate to the legacy config's
write. -/
def WorkspaceConfig.write (c : WorkspaceConfig) (w : World)
    (workspaceDir : String) : WriteResult :=
  match c.data with
  | some _ =>
    match c.toVinyl w workspaceDir with
    | some file => .persisted [file]
    | none => .delegatedToLegacy workspaceDir
  | none => .delegatedToLegacy workspaceDir

/-- Store of live document objects, modelling object identity: a reference is
an index into the store. -/
abbrev DocStore := List (List (String × Value))

/-- Allocation of a freshly parsed document (each parse call returns a new
object). -/
def allocDoc (s : DocStore) (d : List (String × Value)) : DocStore × Nat :=
  (s ++ [d], s.length)

/-- comment-json assign at the object level: it copies the source's fields
onto the target object in place and returns the target object itself. -/
def assignInPlace (s : DocStore) (target : Nat) (source : List (String × Value)) :
    DocStore × Nat :=
  (s.set target (docAssign (s.getD target []) source), target)

/-- The merge step of create at the object level: parsing allocates the
template document, assign merges the props onto it and returns it; the result
is the final store with the references to the parsed template and to the
merged document. -/
def createMergeStep (s : DocStore) (template props : List (String × Value)) :
    DocStore × Nat × Nat :=
  let (s1, templateRef) := allocDoc s template
  let (s2, mergedRef) := assignInPlace s1 templateRef props
  (s2, templateRef, mergedRef)

/-- ramda pick: the named keys that exist on the object, in the order of the
name list. -/
def ramdaPick (names : List String) (o : List (String × Value)) :
    List (String × Value) :=
  match names with
  | [] => []
  | n :: rest =>
    match lookupKey n o with
    | some v => (n, v) :: ramdaPick rest o
    | none => ramdaPick rest o

/-- ramda omit: the object without the named keys. -/
def ramdaOmit (names : List String) (o : List (String × Value)) :
    List (String × Value) :=
  o.filter (fun kv => decide (kv.1 ∉ names))

/-- getCoreExtensionsConfig: pick the fixed workspace-level field names out of
the resolved settings into a workspace namespace and keep every other settings
field at the top level. -/
def WorkspaceConfig.getCoreExtensionsConfig (c : WorkspaceConfig) :
    List (String × Value) :=
  let workspaceConfig := c.workspaceSettings
  let workspaceExtPropNames := ["defaultScope", "componentsDefaultDirectory"]
  let workspaceExtProps := ramdaPick workspaceExtPropNames workspaceConfig
  let result := ramdaOmit workspaceExtPropNames workspaceConfig
  putKey "workspace" (Value.obj workspaceExtProps) result

/-- First-defined combinator on possibly-absent values (plain or-else without
truthiness, used to state the lookup laws). -/
def optOr (a b : Option α) : Option α :=
  match a with
  | some v => some v
  | none => b

theorem lookupKey_nil (k : String) : lookupKey k ([] : List (String × α)) = none :=
  rfl

theorem lookupKey_cons (k k' : String) (v : α) (rest : List (String × α)) :
    lookupKey k ((k', v) :: rest) = if k' = k then some v else lookupKey k rest :=
  rfl

theorem lookupKey_append (k : String) (a b : List (String × α)) :
    lookupKey k (a ++ b) = optOr (lookupKey k a) (lookupKey k b) := by
  induction a with
  | nil => simp [lookupKey, optOr]
  | cons hd tl ih =>
    obtain ⟨k', v⟩ := hd
    by_cases h : k' = k
    · simp [lookupKey_cons, h, optOr]
    · simp [lookupKey_cons, h, ih]

theorem lookupKey_map_assign (k : String) (t s : List (String × Value)) :
    lookupKey k (t.map (fun kv =>
        match lookupKey kv.1 s with
        | some w => (kv.1, w)
        | none => kv)) =
      (lookupKey k t).map (fun v => (lookupKey k s).getD v) := by
  induction t with
  | nil => rfl
  | cons hd tl ih =>
    obtain ⟨k', v⟩ := hd
    simp only [List.map_cons]
    cases hs : lookupKey k' s with
    | some w =>
      simp only [hs]
      by_cases h : k' = k
      · subst h
        rw [lookupKey_cons, if_pos rfl, lookupKey_cons, if_pos rfl]
        simp [hs]
      · rw [lookupKey_cons, if_neg h, lookupKey_cons, if_neg h, ih]
    | none =>
      simp only [hs]
      by_cases h : k' = k
      · subst h
        rw [lookupKey_cons, if_pos rfl, lookupKey_cons, if_pos rfl]
        simp [hs]
      · rw [lookupKey_cons, if_neg h, lookupKey_cons, if_neg h, ih]

theorem lookupKey_filter_notin (k : String) (t s : List (String × Value)) :
    lookupKey k (s.filter (fun kv => (lookupKey kv.1 t).isNone)) =
      if (lookupKey k t).isNone then lookupKey k s else none := by
  induction s with
  | nil =>
    cases h : (lookupKey k t).isNone <;> simp [lookupKey, h]
  | cons hd rest ih =>
    obtain ⟨k'', v⟩ := hd
    rw [List.filter_cons]
    by_cases h2 : k'' = k
    · subst h2
      cases h1 : (lookupKey k'' t).isNone
      · simp only [h1, Bool.false_eq_true, if_false, ih]
      · simp only [h1, if_true, lookupKey_cons, if_pos rfl]
    · cases h1 : (lookupKey k'' t).isNone
      · simp only [h1, Bool.false_eq_true, if_false, ih, lookupKey_cons, h2]
      · simp only [h1, if_true, lookupKey_cons, if_neg h2, ih]

/-- Core law of the shallow merge: a field of the merged document reads as the
source's value when the source supplies the key, otherwise as the target's. -/
theorem lookupKey_docAssign (k : String) (t s : List (String × Value)) :
    lookupKey k (docAssign t s) = optOr (lookupKey k s) (lookupKey k t) := by
  unfold docAssign
  rw [lookupKey_append, lookupKey_map_assign, lookupKey_filter_notin]
  cases hs : lookupKey k s <;> cases ht : lookupKey k t <;> simp [optOr]

theorem lookupKey_ramdaOmit (k : String) (names : List String)
    (o : List (String × Value)) :
    lookupKey k (ramdaOmit names o) =
      if k ∈ names then none else lookupKey k o := by
  induction o with
  | nil => by_cases h : k ∈ names <;> simp [ramdaOmit, lookupKey, h]
  | cons hd rest ih =>
    obtain ⟨k', v⟩ := hd
    unfold ramdaOmit at ih ⊢
    simp only [decide_not] at ih
    rw [List.filter_cons]
    by_cases h : k' = k
    · subst h
      by_cases hc : k' ∈ names <;> simp [hc, lookupKey_cons, ih]
    · by_cases hc : k' ∈ names <;> simp [hc, lookupKey_cons, h, ih]

theorem lookupKey_ramdaPick_not_mem (k : String) (names : List String)
    (o : List (String × Value)) (hk : k ∉ names) :
    lookupKey k (ramdaPick names o) = none := by
  induction names with
  | nil => rfl
  | cons n rest ih =>
    have hkn : k ≠ n := fun h => hk (h ▸ List.mem_cons_self n rest)
    have hkr : k ∉ rest := fun h => hk (List.mem_cons_of_mem n h)
    unfold ramdaPick
    cases hn : lookupKey n o
    · exact ih hkr
    · rw [lookupKey_cons, if_neg (Ne.symm hkn)]
      exact ih hkr

theorem lookupKey_ramdaPick_mem (k : String) (names : List String)
    (o : List (String × Value)) (hk : k ∈ names) (hnd : names.Nodup) :
    lookupKey k (ramdaPick names o) = lookupKey k o := by
  induction names with
  | nil => cases hk
  | cons n rest ih =>
    have hnd' : rest.Nodup := (List.nodup_cons.mp hnd).2
    unfold ramdaPick
    by_cases h : k = n
    · subst h
      have hkr : k ∉ rest := (List.nodup_cons.mp hnd).1
      cases hn : lookupKey k o
      · rw [lookupKey_ramdaPick_not_mem k rest o hkr]
      · rw [lookupKey_cons, if_pos rfl]
    · have hkr : k ∈ rest := by
        cases List.mem_cons.mp hk with
        | inl h' => exact absurd h' h
        | inr h' => exact h'
      cases hn : lookupKey n o
      · exact ih hkr hnd'
      · rw [lookupKey_cons, if_neg (Ne.symm h), ih hkr hnd']

theorem lookupKey_map_put (k : String) (v : α) (o : List (String × α)) :
    lookupKey k (o.map (fun kv => if kv.1 = k then (k, v) else kv)) =
      (lookupKey k o).map (fun _ => v) := by
  induction o with
  | nil => rfl
  | cons hd tl ih =>
    obtain ⟨k', v'⟩ := hd
    simp only [List.map_cons]
    by_cases h : k' = k
    · subst h
      simp [lookupKey_cons]
    · simp [lookupKey_cons, h, ih]

theorem lookupKey_map_put_other (k k' : String) (v : α) (o : List (String × α))
    (hne : k' ≠ k) :
    lookupKey k' (o.map (fun kv => if kv.1 = k then (k, v) else kv)) =
      lookupKey k' o := by
  induction o with
  | nil => rfl
  | cons hd tl ih =>
    obtain ⟨k'', v''⟩ := hd
    simp only [List.map_cons]
    by_cases h : k'' = k
    · subst h
      simp [lookupKey_cons, hne, Ne.symm hne, ih]
    · simp [lookupKey_cons, h, ih]

theorem lookupKey_putKey_self (k : String) (v : α) (o : List (String × α)) :
    lookupKey k (putKey k v o) = some v := by
  unfold putKey
  by_cases h : (lookupKey k o).isSome
  · rw [if_pos h, lookupKey_map_put]
    obtain ⟨w, hw⟩ := Option.isSome_iff_exists.mp h
    simp [hw]
  · rw [if_neg h, lookupKey_append]
    have hnone : lookupKey k o = none := Option.not_isSome_iff_eq_none.mp h
    simp [hnone, optOr, lookupKey]

theorem lookupKey_putKey_other (k k' : String) (v : α) (o : List (String × α))
    (hne : k' ≠ k) :
    lookupKey k' (putKey k v o) = lookupKey k' o := by
  unfold putKey
  by_cases h : (lookupKey k o).isSome
  · rw [if_pos h, lookupKey_map_put_other k k' v o hne]
  · rw [if_neg h, lookupKey_append]
    rw [lookupKey_cons, if_neg (Ne.symm hne), lookupKey_nil]
    cases hx : lookupKey k' o <;> simp [optOr]

/-- C10: for every WorkspaceConfig built from modern data (no wrapped legacy
config), the lang accessor returns the fixed default language constant,
whatever the modern payload holds — the language is sourced only from a
wrapped legacy config. -/
theorem C10_lang_default_for_modern :
    (∀ data : List (String × Value),
      (WorkspaceConfig.fromObject data).lang = DEFAULT_LANGUAGE) ∧
    (∀ c : WorkspaceConfig, c.legacyConfig = none → c.lang = DEFAULT_LANGUAGE) := by
  constructor
  · intro data
    rfl
  · intro c h
    unfold WorkspaceConfig.lang
    rw [h]
    rfl

/-- Witness for C10 at a modern payload that even carries a lang field of its
own: the accessor still answers the default language. -/
theorem C10_lang_default_for_modern_witness :
    (WorkspaceConfig.fromObject
      [("workspace", Value.obj [("lang", Value.str "typescript")])]).lang =
      DEFAULT_LANGUAGE :=
  C10_lang_default_for_modern.1
    [("workspace", Value.obj [("lang", Value.str "typescript")])]

/-- Concrete legacy config whose file path is nonempty, wrapped for the path
precedence counterexample. -/
def legacyAtPath : LegacyWorkspaceConfig :=
  { path := "/legacy/bit.json", lang := "", compiler := none, tester := none,
    overrides := none, toVinylFn := fun _ => none }

/-- C6 counterexample: setting the path to the empty string and reading it
back does not return the empty string — the JS or-chain treats the explicitly
set empty path as falsy and falls through to the wrapped legacy path. -/
theorem C6_counterexample :
    ((WorkspaceConfig.fromLegacyConfig legacyAtPath).setPath "").getPath =
        "/legacy/bit.json" ∧
      "/legacy/bit.json" ≠ "" := by
  constructor
  · rfl
  · decide

/-- C6 (amended): path precedence — a nonempty explicitly set path wins over
the wrapped legacy config's path, which wins over the empty string, and the
getter always returns a string (never undefined). Setting a nonempty path p
then reading gives p; an explicitly set empty path is treated as no path
assigned and falls through to the legacy path. -/
theorem C6_path_precedence :
    (∀ (c : WorkspaceConfig) (p : String), p ≠ "" → (c.setPath p).getPath = p) ∧
    (∀ (c : WorkspaceConfig) (p : String), c._path = some p → p ≠ "" →
      c.getPath = p) ∧
    (∀ (c : WorkspaceConfig) (l : LegacyWorkspaceConfig), c._path = none →
      c.legacyConfig = some l → c.getPath = l.path) ∧
    (∀ (c : WorkspaceConfig) (l : LegacyWorkspaceConfig), c._path = some "" →
      c.legacyConfig = some l → c.getPath = l.path) ∧
    (∀ c : WorkspaceConfig, c._path = none → c.legacyConfig = none →
      c.getPath = "") := by
  refine ⟨?_, ?_, ?_, ?_, ?_⟩
  · intro c p hp
    simp [WorkspaceConfig.setPath, WorkspaceConfig.getPath, strOr, hp]
  · intro c p h1 hp
    simp [WorkspaceConfig.getPath, strOr, h1, hp]
  · intro c l h1 h2
    simp only [WorkspaceConfig.getPath, strOr, h1, h2, Option.map_some']
    by_cases hl : l.path = "" <;> simp [hl]
  · intro c l h1 h2
    simp only [WorkspaceConfig.getPath, strOr, h1, h2, Option.map_some']
    by_cases hl : l.path = "" <;> simp [hl]
  · intro c h1 h2
    simp [WorkspaceConfig.getPath, strOr, h1, h2]

/-- Witness for C6 at concrete configs: a nonempty set path is read back, a
legacy path is inherited when no path was set, and with neither the getter
answers the empty string. -/
theorem C6_path_precedence_witness :
    ((WorkspaceConfig.mkConfig none none).setPath "/ws/bit.jsonc").getPath =
        "/ws/bit.jsonc" ∧
      (WorkspaceConfig.fromLegacyConfig legacyAtPath).getPath =
        "/legacy/bit.json" ∧
      (WorkspaceConfig.mkConfig none none).getPath = "" :=
  ⟨C6_path_precedence.1 (WorkspaceConfig.mkConfig none none) "/ws/bit.jsonc"
      (by decide),
    C6_path_precedence.2.2.1 (WorkspaceConfig.fromLegacyConfig legacyAtPath)
      legacyAtPath rfl rfl,
    C6_path_precedence.2.2.2.2 (WorkspaceConfig.mkConfig none none) rfl rfl⟩

/-- C2: getComponentConfig modifies only the env.compiler and env.tester
fields of the record produced by the Override Table lookup — the record's
remaining fields and the env section's remaining fields come back exactly as
supplied; for a config with no wrapped legacy payload (in particular every
config built from modern data) the record is returned unchanged, so no legacy
fallback occurs at all. -/
theorem C2_frame_only_env_compiler_tester :
    (∀ (c : WorkspaceConfig) (componentId : String),
      (c.getComponentConfig componentId).other =
          (c.overrideLookup componentId).other ∧
        ((c.getComponentConfig componentId).env.getD emptyEnvOverride).otherEnv =
          ((c.overrideLookup componentId).env.getD emptyEnvOverride).otherEnv) ∧
    (∀ (c : WorkspaceConfig) (componentId : String), c.legacyConfig = none →
      c.getComponentConfig componentId = c.overrideLookup componentId) ∧
    (∀ (data : List (String × Value)) (componentId : String),
      (WorkspaceConfig.fromObject data).getComponentConfig componentId =
        (WorkspaceConfig.fromObject data).overrideLookup componentId) := by
  refine ⟨?_, ?_, ?_⟩
  · intro c componentId
    unfold WorkspaceConfig.getComponentConfig
    cases hp : c._legacyPlainObject with
    | none => exact ⟨rfl, rfl⟩
    | some pl => exact ⟨rfl, rfl⟩
  · intro c componentId h
    unfold WorkspaceConfig.getComponentConfig WorkspaceConfig._legacyPlainObject
    rw [h]
    rfl
  · intro data componentId
    rfl

/-- Witness for C2 at concrete configs, one with neither payload and one with
a modern payload carrying a components section. -/
theorem C2_frame_witness :
    (WorkspaceConfig.mkConfig none none).getComponentConfig "comp/x" =
        (WorkspaceConfig.mkConfig none none).overrideLookup "comp/x" ∧
      (WorkspaceConfig.fromObject
          [("components", Value.obj [("comp/x",
            Value.obj [("env", Value.obj [("compiler", Value.str "c")])])])]
        ).getComponentConfig "comp/x" =
        (WorkspaceConfig.fromObject
          [("components", Value.obj [("comp/x",
            Value.obj [("env", Value.obj [("compiler", Value.str "c")])])])]
        ).overrideLookup "comp/x" :=
  ⟨C2_frame_only_env_compiler_tester.2.1 (WorkspaceConfig.mkConfig none none)
      "comp/x" rfl,
    C2_frame_only_env_compiler_tester.2.2
      [("components", Value.obj [("comp/x",
        Value.obj [("env", Value.obj [("compiler", Value.str "c")])])])]
      "comp/x"⟩

/-- Concrete legacy config with a root compiler and an override for comp/x
whose env.compiler is the empty string — supplied but falsy in JS terms. -/
def legacyWithEmptyCompilerOverride : LegacyWorkspaceConfig :=
  { path := "/ws/bit.json", lang := "javascript",
    compiler := some (Value.str "legacy-compiler"),
    tester := none,
    overrides := some [("comp/x",
      { env := some { compiler := some (Value.str ""), tester := none,
                      otherEnv := [] },
        other := [] })],
    toVinylFn := fun _ => none }

/-- C1 counterexample: the Override Table's merged record for comp/x supplies
env.compiler (the empty string), yet getComponentConfig answers the legacy
root compiler — the JS or-assignment overrides a supplied falsy value, so the
override does not always win over the legacy fallback. -/
theorem C1_counterexample :
    ((WorkspaceConfig.fromLegacyConfig
          legacyWithEmptyCompilerOverride).overrideLookup "comp/x").env.map
        EnvOverride.compiler = some (some (Value.str "")) ∧
      ((WorkspaceConfig.fromLegacyConfig
          legacyWithEmptyCompilerOverride).getComponentConfig "comp/x").env.map
        EnvOverride.compiler = some (some (Value.str "legacy-compiler")) ∧
      ¬ some (some (Value.str "legacy-compiler")) =
          (some (some (Value.str "")) :
            Option (Option Value)) := by
  refine ⟨rfl, rfl, ?_⟩
  intro h
  injection h with h1
  injection h1 with h2
  injection h2 with h3
  exact absurd h3 (by decide)

/-- C1 (amended): for a legacy-wrapped config with root compiler and tester,
when the Override Table's merged record for the component is empty,
getComponentConfig answers a record whose env.compiler and env.tester are the
legacy root-level values; when the merged record already supplies a truthy
env.compiler (any object, or a nonempty string — a supplied empty string
counts as absent under the JS or-assignment), that value wins over the legacy
fallback. -/
theorem C1_legacy_env_fallback (lc : LegacyWorkspaceConfig)
    (componentId : String) :
    ((WorkspaceConfig.fromLegacyConfig lc).overrideLookup componentId =
        emptyOverrideRecord →
      ((WorkspaceConfig.fromLegacyConfig lc).getComponentConfig
          componentId).env =
        some { compiler := lc.compiler, tester := lc.tester, otherEnv := [] }) ∧
    (∀ (e : EnvOverride) (v : Value),
      ((WorkspaceConfig.fromLegacyConfig lc).overrideLookup componentId).env =
        some e →
      e.compiler = some v → vTruthy v = true →
      ((WorkspaceConfig.fromLegacyConfig lc).getComponentConfig
          componentId).env.map EnvOverride.compiler = some (some v)) := by
  constructor
  · intro h
    unfold WorkspaceConfig.getComponentConfig
    rw [h]
    rfl
  · intro e v he hv htruthy
    unfold WorkspaceConfig.getComponentConfig
    have hp : (WorkspaceConfig.fromLegacyConfig lc)._legacyPlainObject =
        some lc.toPlainObject := rfl
    rw [hp]
    simp only [he, Option.getD_some, hv, jsOr, htruthy, if_true,
      Option.map_some']

/-- Concrete legacy config with root envs and no override table. -/
def legacyRootEnvs : LegacyWorkspaceConfig :=
  { path := "/ws/bit.json", lang := "javascript",
    compiler := some (Value.str "babel"), tester := some (Value.str "jest"),
    overrides := none, toVinylFn := fun _ => none }

/-- Concrete legacy config with a root compiler and an override for comp/x
supplying a truthy (nonempty) env.compiler. -/
def legacyWithTruthyOverride : LegacyWorkspaceConfig :=
  { path := "/ws/bit.json", lang := "javascript",
    compiler := some (Value.str "legacy-compiler"), tester := none,
    overrides := some [("comp/x",
      { env := some { compiler := some (Value.str "c2"), tester := none,
                      otherEnv := [] },
        other := [] })],
    toVinylFn := fun _ => none }

/-- Witness for C1: with no override the legacy root compiler and tester are
inherited; with a truthy override the override value wins. -/
theorem C1_legacy_env_fallback_witness :
    ((WorkspaceConfig.fromLegacyConfig legacyRootEnvs).getComponentConfig
        "comp/x").env =
      some { compiler := some (Value.str "babel"),
             tester := some (Value.str "jest"), otherEnv := [] } ∧
      ((WorkspaceConfig.fromLegacyConfig
          legacyWithTruthyOverride).getComponentConfig "comp/x").env.map
        EnvOverride.compiler = some (some (Value.str "c2")) :=
  ⟨(C1_legacy_env_fallback legacyRootEnvs "comp/x").1 rfl,
    (C1_legacy_env_fallback legacyWithTruthyOverride "comp/x").2
      { compiler := some (Value.str "c2"), tester := none, otherEnv := [] }
      (Value.str "c2") rfl rfl rfl⟩

/-- C5: getCoreExtensionsConfig is a total function over all resolved settings
maps (no optional field is required for it to be defined) and partitions the
settings: the fixed field names defaultScope and componentsDefaultDirectory
(when present) appear, with their settings values, under the workspace key and
only they do; every other settings field appears unchanged at the top level;
the extracted names no longer appear at the top level. The settings map is
assumed to have no field named workspace — that key is introduced by the
partitioner itself (the spec-modelled WorkspaceSettings carries only
workspace-level settings fields). -/
theorem C5_core_extensions_partition (c : WorkspaceConfig)
    (hws : lookupKey "workspace" c.workspaceSettings = none) :
    (lookupKey "workspace" c.getCoreExtensionsConfig =
      some (Value.obj (ramdaPick ["defaultScope", "componentsDefaultDirectory"]
        c.workspaceSettings))) ∧
    (∀ k, k ∈ (["defaultScope", "componentsDefaultDirectory"] : List String) →
      lookupKey k (ramdaPick ["defaultScope", "componentsDefaultDirectory"]
        c.workspaceSettings) = lookupKey k c.workspaceSettings) ∧
    (∀ k, k ∉ (["defaultScope", "componentsDefaultDirectory"] : List String) →
      lookupKey k (ramdaPick ["defaultScope", "componentsDefaultDirectory"]
        c.workspaceSettings) = none) ∧
    (∀ k v, k ∉ (["defaultScope", "componentsDefaultDirectory"] : List String) →
      lookupKey k c.workspaceSettings = some v →
      lookupKey k c.getCoreExtensionsConfig = some v) ∧
    (∀ k, k ∈ (["defaultScope", "componentsDefaultDirectory"] : List String) →
      lookupKey k c.getCoreExtensionsConfig = none) := by
  refine ⟨?_, ?_, ?_, ?_, ?_⟩
  · unfold WorkspaceConfig.getCoreExtensionsConfig
    exact lookupKey_putKey_self _ _ _
  · intro k hk
    exact lookupKey_ramdaPick_mem k _ c.workspaceSettings hk (by decide)
  · intro k hk
    exact lookupKey_ramdaPick_not_mem k _ c.workspaceSettings hk
  · intro k v hk hv
    have hkw : k ≠ "workspace" := by
      intro h
      rw [h, hws] at hv
      cases hv
    unfold WorkspaceConfig.getCoreExtensionsConfig
    rw [lookupKey_putKey_other _ _ _ _ hkw, lookupKey_ramdaOmit, if_neg hk, hv]
  · intro k hk
    have hkw : k ≠ "workspace" := by
      intro h
      rw [h] at hk
      exact absurd hk (by decide)
    unfold WorkspaceConfig.getCoreExtensionsConfig
    rw [lookupKey_putKey_other _ _ _ _ hkw, lookupKey_ramdaOmit, if_pos hk]

/-- Modern payload for the C5 witness: the spec's example settings. -/
def sampleModernPayload : List (String × Value) :=
  [("workspace", Value.obj
    [("defaultScope", Value.str "s"),
     ("componentsDefaultDirectory", Value.str "d"),
     ("lang", Value.str "ts")])]

/-- Witness for C5 at the spec's example settings: the partitioner yields the
example output exactly — lang stays top-level and the two fixed fields move
under the workspace key. -/
theorem C5_core_extensions_partition_witness :
    (WorkspaceConfig.fromObject sampleModernPayload).getCoreExtensionsConfig =
      [("lang", Value.str "ts"),
       ("workspace", Value.obj
         [("defaultScope", Value.str "s"),
          ("componentsDefaultDirectory", Value.str "d")])] ∧
      lookupKey "workspace"
        (WorkspaceConfig.fromObject sampleModernPayload).getCoreExtensionsConfig =
        some (Value.obj (ramdaPick ["defaultScope", "componentsDefaultDirectory"]
          (WorkspaceConfig.fromObject sampleModernPayload).workspaceSettings)) :=
  ⟨rfl,
    (C5_core_extensions_partition (WorkspaceConfig.fromObject sampleModernPayload)
      rfl).1⟩

/-- Template document for the C7 counterexample: one field the props override
and one unknown field. -/
def templateForMergeCex : List (String × Value) :=
  [("a", Value.str "1"), ("keep", Value.str "k")]

/-- Props for the C7 counterexample, overriding the field a. -/
def propsForMergeCex : List (String × Value) :=
  [("a", Value.str "2")]

/-- C7 counterexample: the assign step of create returns the very object it
was given as target — the reference to the merged result equals the reference
to the freshly parsed template, whose contents have changed — so the merge
does not produce a new structure distinct from the parsed template document. -/
theorem C7_counterexample :
    (createMergeStep [] templateForMergeCex propsForMergeCex).2.2 =
        (createMergeStep [] templateForMergeCex propsForMergeCex).2.1 ∧
      lookupKey "a"
        ((createMergeStep [] templateForMergeCex propsForMergeCex).1.getD
          (createMergeStep [] templateForMergeCex propsForMergeCex).2.1 []) =
        some (Value.str "2") ∧
      lookupKey "a" templateForMergeCex = some (Value.str "1") ∧
      ¬ Value.str "2" = Value.str "1" := by
  refine ⟨rfl, rfl, rfl, ?_⟩
  intro h
  injection h with h'
  exact absurd h' (by decide)

/-- C7 (amended): the create merge is a shallow structural merge in which
props fields win over template fields and unknown template fields are
preserved; it is performed in place on the per-call freshly parsed template
document and returns that same document (not a new structure); the instance's
data is exactly the merged document. The on-disk template resource itself is
re-read and re-parsed on every call and never modified. -/
theorem C7_template_merge :
    (∀ template props : List (String × Value),
      createMergeStep [] template props = ([docAssign template props], 0, 0)) ∧
    (∀ (template props : List (String × Value)) (k : String),
      lookupKey k (docAssign template props) =
        optOr (lookupKey k props) (lookupKey k template)) ∧
    (∀ (w : World) (props : List (String × Value)) (dirPath : Option String),
      (WorkspaceConfig.create w props dirPath).data =
        some (docAssign w.template props)) := by
  refine ⟨?_, ?_, ?_⟩
  · intro template props
    rfl
  · intro template props k
    exact lookupKey_docAssign k template props
  · intro w props dirPath
    cases dirPath <;> rfl

/-- World used by witnesses that exercise serialization. -/
def sampleWorld : World :=
  { files := [], legacyLoad := fun _ => none, parse := fun _ => none,
    stringify := fun _ => "serialized", template := [] }

/-- C8: write with modern data persists exactly one virtual-file record, based
at the given workspace dir with the computed bit.jsonc path and the serialized
data as contents (the dir is a real, nonempty absolute path); with no modern
data it delegates persistence to the Legacy Bridge's write; and whenever this
component persists at all, the batch holds exactly one file. -/
theorem C8_write_single_file :
    (∀ (c : WorkspaceConfig) (w : World) (workspaceDir : String)
        (d : List (String × Value)),
      c.data = some d → workspaceDir ≠ "" →
      c.write w workspaceDir = WriteResult.persisted
        [{ base := workspaceDir,
           path := WorkspaceConfig.composeBitJsoncPath workspaceDir,
           contents := w.stringify d }]) ∧
    (∀ (c : WorkspaceConfig) (w : World) (workspaceDir : String),
      c.data = none →
      c.write w workspaceDir = WriteResult.delegatedToLegacy workspaceDir) ∧
    (∀ (c : WorkspaceConfig) (w : World) (workspaceDir : String)
        (files : List AbstractVinyl),
      c.write w workspaceDir = WriteResult.persisted files →
      files.length = 1) := by
  refine ⟨?_, ?_, ?_⟩
  · intro c w dir d hd hdir
    unfold WorkspaceConfig.write WorkspaceConfig.toVinyl
    rw [hd]
    simp [hdir]
  · intro c w dir hd
    unfold WorkspaceConfig.write
    rw [hd]
  · intro c w dir files h
    unfold WorkspaceConfig.write WorkspaceConfig.toVinyl at h
    cases hd : c.data with
    | none =>
      rw [hd] at h
      exact WriteResult.noConfusion h
    | some d =>
      rw [hd] at h
      injection h with h'
      rw [← h']
      rfl

/-- Witness for C8: a modern config persists its single serialized file; a
config with no modern payload delegates to the legacy write. -/
theorem C8_write_single_file_witness :
    (WorkspaceConfig.fromObject [("workspace", Value.obj [])]).write
        sampleWorld "/ws" =
        WriteResult.persisted
          [{ base := "/ws", path := "/ws/bit.jsonc",
             contents := "serialized" }] ∧
      (WorkspaceConfig.mkConfig none none).write sampleWorld "/ws" =
        WriteResult.delegatedToLegacy "/ws" :=
  ⟨C8_write_single_file.1 (WorkspaceConfig.fromObject [("workspace", Value.obj [])])
      sampleWorld "/ws" [("workspace", Value.obj [])] rfl (by decide),
    C8_write_single_file.2.1 (WorkspaceConfig.mkConfig none none) sampleWorld
      "/ws" rfl⟩

/-- The C9 invariant: exactly one of the modern and legacy payloads is
present, and the workspace settings are derived from whichever payload is
present (from the data's workspace section when modern data is present, from
the legacy config otherwise). -/
def configInvariant (c : WorkspaceConfig) : Prop :=
  ((c.data.isSome = true ∧ c.legacyConfig = none) ∨
    (c.data = none ∧ c.legacyConfig.isSome = true)) ∧
  c.workspaceSettings =
    (match c.data with
     | some d => WorkspaceSettings.fromObject (lookupKey "workspace" d)
     | none => WorkspaceSettings.fromLegacyConfig c.legacyConfig)

theorem configInvariant_setPath (c : WorkspaceConfig) (p : String)
    (h : configInvariant c) : configInvariant (c.setPath p) := by
  unfold configInvariant at h ⊢
  exact h

theorem configInvariant_loadIfExist (w : World) (dirPath : String)
    (c : WorkspaceConfig)
    (h : WorkspaceConfig.loadIfExist w dirPath = .ok (some c)) :
    configInvariant c := by
  unfold WorkspaceConfig.loadIfExist WorkspaceConfig._loadFromBitJsonc at h
  cases hl : lookupKey (WorkspaceConfig.composeBitJsoncPath dirPath) w.files with
  | some contents =>
    simp only [hl] at h
    cases hp : w.parse contents with
    | some parsed =>
      simp only [hp] at h
      injection h with h1
      injection h1 with h2
      subst h2
      exact configInvariant_setPath _ _
        (by unfold configInvariant; exact ⟨Or.inl ⟨rfl, rfl⟩, rfl⟩)
    | none =>
      simp only [hp] at h
      exact Except.noConfusion h
  | none =>
    simp only [hl] at h
    cases hll : w.legacyLoad dirPath with
    | some lc =>
      simp only [hll] at h
      injection h with h1
      injection h1 with h2
      subst h2
      unfold configInvariant
      exact ⟨Or.inr ⟨rfl, rfl⟩, rfl⟩
    | none =>
      simp only [hll] at h
      injection h with h1
      exact Option.noConfusion h1

/-- C9: every WorkspaceConfig reachable through fromObject, fromLegacyConfig,
create, loadIfExist and ensure holds exactly one nonempty payload, with its
workspace settings derived from that payload. -/
theorem C9_exactly_one_payload :
    (∀ data : List (String × Value),
      configInvariant (WorkspaceConfig.fromObject data)) ∧
    (∀ lc : LegacyWorkspaceConfig,
      configInvariant (WorkspaceConfig.fromLegacyConfig lc)) ∧
    (∀ (w : World) (props : List (String × Value)) (dirPath : Option String),
      configInvariant (WorkspaceConfig.create w props dirPath)) ∧
    (∀ (w : World) (dirPath : String) (c : WorkspaceConfig),
      WorkspaceConfig.loadIfExist w dirPath = .ok (some c) →
      configInvariant c) ∧
    (∀ (w : World) (dirPath : String) (props : List (String × Value))
        (c : WorkspaceConfig),
      WorkspaceConfig.ensure w dirPath props = .ok c → configInvariant c) := by
  refine ⟨?_, ?_, ?_, ?_, ?_⟩
  · intro data
    unfold configInvariant
    exact ⟨Or.inl ⟨rfl, rfl⟩, rfl⟩
  · intro lc
    unfold configInvariant
    exact ⟨Or.inr ⟨rfl, rfl⟩, rfl⟩
  · intro w props dirPath
    cases dirPath with
    | none =>
      unfold configInvariant
      exact ⟨Or.inl ⟨rfl, rfl⟩, rfl⟩
    | some dir =>
      unfold configInvariant
      exact ⟨Or.inl ⟨rfl, rfl⟩, rfl⟩
  · exact configInvariant_loadIfExist
  · intro w dirPath props c h
    unfold WorkspaceConfig.ensure at h
    cases he : WorkspaceConfig.loadIfExist w dirPath with
    | error e =>
      simp only [he] at h
      exact Except.noConfusion h
    | ok o =>
      cases o with
      | some c0 =>
        simp only [he] at h
        injection h with h1
        subst h1
        exact configInvariant_loadIfExist w dirPath c0 he
      | none =>
        simp only [he] at h
        injection h with h1
        subst h1
        unfold configInvariant
        exact ⟨Or.inl ⟨rfl, rfl⟩, rfl⟩

/-- World whose bit.jsonc file exists and parses. -/
def loadedWorld : World :=
  { files := [("/ws/bit.jsonc", "good")], legacyLoad := fun _ => none,
    parse := fun _ => some [("workspace", Value.obj [])],
    stringify := fun _ => "", template := [] }

/-- World with no modern file, no legacy config, a failing parser and a
nonempty template. -/
def emptyWorld : World :=
  { files := [], legacyLoad := fun _ => none, parse := fun _ => none,
    stringify := fun _ => "", template := [("t", Value.str "v")] }

/-- Witness for C9 at a loaded config and a legacy-wrapped one. -/
theorem C9_exactly_one_payload_witness :
    configInvariant ((WorkspaceConfig.fromObject
        [("workspace", Value.obj [])]).setPath "/ws/bit.jsonc") ∧
      configInvariant (WorkspaceConfig.fromLegacyConfig legacyRootEnvs) :=
  ⟨C9_exactly_one_payload.2.2.2.1 loadedWorld "/ws"
      ((WorkspaceConfig.fromObject [("workspace", Value.obj [])]).setPath
        "/ws/bit.jsonc") rfl,
    C9_exactly_one_payload.2.1 legacyRootEnvs⟩

/-- C4: loadIfExist raises InvalidConfigFile (naming the bit.jsonc path)
exactly when the modern config file exists under the directory but fails to
parse; when neither the modern file nor a legacy config is found it answers
none without raising; when the modern file exists and parses it answers a
config built from the parsed payload with its path set to the file's path;
and a found legacy config is wrapped. -/
theorem C4_loadIfExist_error_handling :
    (∀ (w : World) (dirPath contents : String),
      lookupKey (WorkspaceConfig.composeBitJsoncPath dirPath) w.files =
        some contents →
      w.parse contents = none →
      WorkspaceConfig.loadIfExist w dirPath =
        .error { path := WorkspaceConfig.composeBitJsoncPath dirPath }) ∧
    (∀ (w : World) (dirPath : String) (e : InvalidConfigFile),
      WorkspaceConfig.loadIfExist w dirPath = .error e →
      ∃ contents,
        lookupKey (WorkspaceConfig.composeBitJsoncPath dirPath) w.files =
          some contents ∧
        w.parse contents = none ∧
        e = { path := WorkspaceConfig.composeBitJsoncPath dirPath }) ∧
    (∀ (w : World) (dirPath : String),
      lookupKey (WorkspaceConfig.composeBitJsoncPath dirPath) w.files = none →
      w.legacyLoad dirPath = none →
      WorkspaceConfig.loadIfExist w dirPath = .ok none) ∧
    (∀ (w : World) (dirPath contents : String) (d : List (String × Value)),
      lookupKey (WorkspaceConfig.composeBitJsoncPath dirPath) w.files =
        some contents →
      w.parse contents = some d →
      WorkspaceConfig.loadIfExist w dirPath =
        .ok (some ((WorkspaceConfig.fromObject d).setPath
          (WorkspaceConfig.composeBitJsoncPath dirPath)))) ∧
    (∀ (w : World) (dirPath : String) (lc : LegacyWorkspaceConfig),
      lookupKey (WorkspaceConfig.composeBitJsoncPath dirPath) w.files = none →
      w.legacyLoad dirPath = some lc →
      WorkspaceConfig.loadIfExist w dirPath =
        .ok (some (WorkspaceConfig.fromLegacyConfig lc))) := by
  refine ⟨?_, ?_, ?_, ?_, ?_⟩
  · intro w dirPath contents h1 h2
    unfold WorkspaceConfig.loadIfExist WorkspaceConfig._loadFromBitJsonc
    simp only [h1, h2]
  · intro w dirPath e h
    unfold WorkspaceConfig.loadIfExist WorkspaceConfig._loadFromBitJsonc at h
    cases hl : lookupKey (WorkspaceConfig.composeBitJsoncPath dirPath) w.files with
    | some contents =>
      simp only [hl] at h
      cases hp : w.parse contents with
      | some parsed =>
        simp only [hp] at h
        exact Except.noConfusion h
      | none =>
        simp only [hp] at h
        injection h with h1
        exact ⟨contents, rfl, hp, h1.symm⟩
    | none =>
      simp only [hl] at h
      cases hll : w.legacyLoad dirPath with
      | some lc =>
        simp only [hll] at h
        exact Except.noConfusion h
      | none =>
        simp only [hll] at h
        exact Except.noConfusion h
  · intro w dirPath h1 h2
    unfold WorkspaceConfig.loadIfExist
    simp only [h1, h2]
  · intro w dirPath contents d h1 h2
    unfold WorkspaceConfig.loadIfExist WorkspaceConfig._loadFromBitJsonc
    simp only [h1, h2]
  · intro w dirPath lc h1 h2
    unfold WorkspaceConfig.loadIfExist
    simp only [h1, h2]

/-- World whose bit.jsonc file exists but does not parse. -/
def failWorld : World :=
  { files := [("/ws/bit.jsonc", "not-json")], legacyLoad := fun _ => none,
    parse := fun _ => none, stringify := fun _ => "", template := [] }

/-- World with no modern file but a loadable legacy config. -/
def legacyWorld : World :=
  { files := [], legacyLoad := fun _ => some legacyRootEnvs,
    parse := fun _ => none, stringify := fun _ => "", template := [] }

/-- Witness for C4 at four concrete worlds: parse failure raises, absence of
both files answers none, a parsing file loads with its path set, and a legacy
config is wrapped. -/
theorem C4_loadIfExist_error_handling_witness :
    WorkspaceConfig.loadIfExist failWorld "/ws" =
        .error { path := "/ws/bit.jsonc" } ∧
      WorkspaceConfig.loadIfExist emptyWorld "/ws" = .ok none ∧
      WorkspaceConfig.loadIfExist loadedWorld "/ws" =
        .ok (some ((WorkspaceConfig.fromObject
          [("workspace", Value.obj [])]).setPath "/ws/bit.jsonc")) ∧
      WorkspaceConfig.loadIfExist legacyWorld "/ws" =
        .ok (some (WorkspaceConfig.fromLegacyConfig legacyRootEnvs)) :=
  ⟨C4_loadIfExist_error_handling.1 failWorld "/ws" "not-json" rfl rfl,
    C4_loadIfExist_error_handling.2.2.1 emptyWorld "/ws" rfl rfl,
    C4_loadIfExist_error_handling.2.2.2.1 loadedWorld "/ws" "good"
      [("workspace", Value.obj [])] rfl rfl,
    C4_loadIfExist_error_handling.2.2.2.2 legacyWorld "/ws" legacyRootEnvs
      rfl rfl⟩

/-- The world after one file has been persisted at the given path, as the
persistence collaborator leaves it. -/
def World.withFile (w : World) (p contents : String) : World :=
  { w with files := putKey p contents w.files }

/-- C3: ensure returns the config found by loadIfExist when one exists;
otherwise it returns a new config merging the props over the template with its
path set to the computed bit.jsonc path under the directory (that is exactly
what create builds); and once a file is present at the computed path and
parses — as after persisting a first ensure result — ensure loads that file
rather than recreating a config from the template. -/
theorem C3_ensure_load_or_create :
    (∀ (w : World) (dirPath : String) (props : List (String × Value))
        (c : WorkspaceConfig),
      WorkspaceConfig.loadIfExist w dirPath = .ok (some c) →
      WorkspaceConfig.ensure w dirPath props = .ok c) ∧
    (∀ (w : World) (dirPath : String) (props : List (String × Value)),
      WorkspaceConfig.loadIfExist w dirPath = .ok none →
      WorkspaceConfig.ensure w dirPath props =
        .ok (WorkspaceConfig.create w props (some dirPath))) ∧
    (∀ (w : World) (props : List (String × Value)) (dirPath : String),
      WorkspaceConfig.create w props (some dirPath) =
        (WorkspaceConfig.mkConfig (some (docAssign w.template props))
          none).setPath (WorkspaceConfig.composeBitJsoncPath dirPath)) ∧
    (∀ (w : World) (dirPath : String) (props : List (String × Value))
        (contents : String) (d : List (String × Value)),
      lookupKey (WorkspaceConfig.composeBitJsoncPath dirPath) w.files =
        some contents →
      w.parse contents = some d →
      WorkspaceConfig.ensure w dirPath props =
        .ok ((WorkspaceConfig.fromObject d).setPath
          (WorkspaceConfig.composeBitJsoncPath dirPath))) ∧
    (∀ (w : World) (dirPath : String) (props : List (String × Value))
        (d d' : List (String × Value)),
      w.parse (w.stringify d) = some d' →
      WorkspaceConfig.ensure
        (w.withFile (WorkspaceConfig.composeBitJsoncPath dirPath)
          (w.stringify d))
        dirPath props =
        .ok ((WorkspaceConfig.fromObject d').setPath
          (WorkspaceConfig.composeBitJsoncPath dirPath))) := by
  refine ⟨?_, ?_, ?_, ?_, ?_⟩
  · intro w dirPath props c h
    unfold WorkspaceConfig.ensure
    simp only [h]
  · intro w dirPath props h
    unfold WorkspaceConfig.ensure
    simp only [h]
  · intro w props dirPath
    rfl
  · intro w dirPath props contents d h1 h2
    have hl : WorkspaceConfig.loadIfExist w dirPath =
        .ok (some ((WorkspaceConfig.fromObject d).setPath
          (WorkspaceConfig.composeBitJsoncPath dirPath))) := by
      unfold WorkspaceConfig.loadIfExist WorkspaceConfig._loadFromBitJsonc
      simp only [h1, h2]
    unfold WorkspaceConfig.ensure
    simp only [hl]
  · intro w dirPath props d d' hp
    have h1 : lookupKey (WorkspaceConfig.composeBitJsoncPath dirPath)
        (putKey (WorkspaceConfig.composeBitJsoncPath dirPath)
          (w.stringify d) w.files) = some (w.stringify d) :=
      lookupKey_putKey_self _ _ _
    have hl : WorkspaceConfig.loadIfExist
        (w.withFile (WorkspaceConfig.composeBitJsoncPath dirPath)
          (w.stringify d)) dirPath =
        .ok (some ((WorkspaceConfig.fromObject d').setPath
          (WorkspaceConfig.composeBitJsoncPath dirPath))) := by
      unfold WorkspaceConfig.loadIfExist WorkspaceConfig._loadFromBitJsonc
        World.withFile
      simp only [h1, hp]
    unfold WorkspaceConfig.ensure
    simp only [hl]

/-- Witness for C3: on a world whose file exists and parses, ensure loads it
(and does not recreate from the template); on a world with neither file,
ensure synthesizes the template-merged config with the computed path. -/
theorem C3_ensure_load_or_create_witness :
    WorkspaceConfig.ensure loadedWorld "/ws" [] =
        .ok ((WorkspaceConfig.fromObject
          [("workspace", Value.obj [])]).setPath "/ws/bit.jsonc") ∧
      WorkspaceConfig.ensure emptyWorld "/ws" [("workspace", Value.obj [])] =
        .ok (WorkspaceConfig.create emptyWorld [("workspace", Value.obj [])]
          (some "/ws")) :=
  ⟨C3_ensure_load_or_create.1 loadedWorld "/ws" []
      ((WorkspaceConfig.fromObject [("workspace", Value.obj [])]).setPath
        "/ws/bit.jsonc") rfl,
    C3_ensure_load_or_create.2.1 emptyWorld "/ws"
      [("workspace", Value.obj [])] rfl⟩
